import Mathlib

/-!
Verification of the hwhile-wrapper library: a shallow embedding of its
binary-tree value converters, tree lexer/parser, line/prompt framer and
interactive session driver, with theorems checking the specification's
claims against the embedded code.
-/

deriving instance DecidableEq for Except

namespace HWhileWrapper

/-! ## Binary trees (`src/parsers/TreeParser.ts` data model)

`BinaryTree` in the source is `null` (the empty tree, written `nil`) or an
object `{left, right}` of two subtrees. -/

inductive BinaryTree where
  | nil : BinaryTree
  | node (left right : BinaryTree) : BinaryTree
deriving DecidableEq

/-! ## Integer converter (`src/converters/IntegerTreeConverter.ts`)

`to_integer` returns `0` on `null` and `1 + to_integer(tree.right)` otherwise;
`to_tree` throws on negative input, returns `null` on `0`, and otherwise
returns `{left: null, right: to_tree(value - 1)}`. -/

def to_integer : BinaryTree → Nat
  | .nil => 0
  | .node _ r => 1 + to_integer r

def to_tree (value : Int) : Except String BinaryTree :=
  if value < 0 then .error "Can't convert negative numbers to trees"
  else if value = 0 then .ok .nil
  else
    match to_tree (value - 1) with
    | .error e => .error e
    | .ok t => .ok (.node .nil t)
termination_by value.toNat
decreasing_by omega

/-- Two trees have the same right spine when they agree everywhere except
possibly in left subtrees. -/
def sameRightSpine : BinaryTree → BinaryTree → Bool
  | .nil, .nil => true
  | .node _ r, .node _ r' => sameRightSpine r r'
  | _, _ => false

/-! ## Tree-list converter (`src/converters/TreeListConverter.ts`)

`tree_to_list` walks the right spine collecting left children;
`list_to_tree` folds the list right-to-left into `{left: list[i], right: res}`
starting from `null`. -/

def tree_to_list : BinaryTree → List BinaryTree
  | .nil => []
  | .node l r => l :: tree_to_list r

def list_to_tree (list : List BinaryTree) : BinaryTree :=
  list.foldr (fun t acc => .node t acc) .nil

/-! ## Number-list converter (`src/converters/NumberListConverter.ts`)

Same cons-spine walk, but each head goes through the integer converter.
The loop in `list_to_tree` runs from the last element to the first, so the
tail of the list is encoded (and any negative element throws) before the
head. -/

def num_tree_to_list : BinaryTree → List Nat
  | .nil => []
  | .node l r => to_integer l :: num_tree_to_list r

def num_list_to_tree : List Int → Except String BinaryTree
  | [] => .ok .nil
  | x :: xs => do
    let rest ← num_list_to_tree xs
    let t ← to_tree x
    pure (.node t rest)

/-! ### Helper lemmas for the converters -/

/-- The canonical unary encoding of a natural number: a right spine of
`n` nodes whose left children are all `nil`. -/
def spineTree : Nat → BinaryTree
  | 0 => .nil
  | n + 1 => .node .nil (spineTree n)

theorem to_tree_ofNat (n : Nat) : to_tree (n : Int) = .ok (spineTree n) := by
  induction n with
  | zero => simp [to_tree, spineTree]
  | succ k ih =>
    rw [to_tree]
    have h0 : ¬ ((k + 1 : Nat) : Int) < 0 := by omega
    have h1 : ¬ ((k + 1 : Nat) : Int) = 0 := by omega
    have h2 : ((k + 1 : Nat) : Int) - 1 = (k : Int) := by omega
    simp only [h0, h1, if_false, h2, ih, spineTree]

theorem to_integer_spineTree (n : Nat) : to_integer (spineTree n) = n := by
  induction n with
  | zero => simp [spineTree, to_integer]
  | succ k ih => simp [spineTree, to_integer, ih]; omega

theorem to_tree_roundtrip (n : Nat) : (to_tree (n : Int)).map to_integer = .ok n := by
  rw [to_tree_ofNat]
  simp [Except.map, to_integer_spineTree]

theorem tree_to_list_list_to_tree (L : List BinaryTree) : tree_to_list (list_to_tree L) = L := by
  induction L with
  | nil => simp [list_to_tree, tree_to_list]
  | cons t ts ih =>
    simp only [list_to_tree, List.foldr] at ih ⊢
    simp [tree_to_list, ih]

theorem num_list_to_tree_ofNat (L : List Nat) :
    num_list_to_tree (L.map Int.ofNat) = .ok (list_to_tree (L.map spineTree)) := by
  induction L with
  | nil => simp [num_list_to_tree, list_to_tree]
  | cons x xs ih =>
    simp only [List.map, num_list_to_tree, ih]
    simp [bind, Except.bind, to_tree_ofNat, list_to_tree, pure, Except.pure]

theorem num_tree_to_list_spine (L : List Nat) :
    num_tree_to_list (list_to_tree (L.map spineTree)) = L := by
  induction L with
  | nil => simp [list_to_tree, num_tree_to_list]
  | cons x xs ih =>
    simp only [List.map, list_to_tree, List.foldr] at ih ⊢
    simp [num_tree_to_list, to_integer_spineTree, ih]

theorem num_list_roundtrip (L : List Nat) :
    (num_list_to_tree (L.map Int.ofNat)).map num_tree_to_list = .ok L := by
  rw [num_list_to_tree_ofNat]
  simp [Except.map, num_tree_to_list_spine]

/-- C1: for every natural number `n ≥ 0`, converting `n` to a tree and back
yields `n`: `to_integer(to_tree(n)) == n` (and `to_tree` succeeds on every
natural number). -/
theorem claim_C1_integer_roundtrip (n : Nat) :
    (to_tree (n : Int)).map to_integer = .ok n :=
  to_tree_roundtrip n

/-- C2: round-tripping a finite list through `list_to_tree`/`tree_to_list`
reproduces the list exactly (same elements, same order, hence same length),
both for lists of trees (`TreeListConverter`) and for lists of natural
numbers (`NumberListConverter`). -/
theorem claim_C2_list_roundtrip :
    (∀ L : List BinaryTree,
        tree_to_list (list_to_tree L) = L ∧ (tree_to_list (list_to_tree L)).length = L.length) ∧
    (∀ L : List Nat,
        (num_list_to_tree (L.map Int.ofNat)).map num_tree_to_list = .ok L) := by
  constructor
  · intro L
    refine ⟨tree_to_list_list_to_tree L, ?_⟩
    rw [tree_to_list_list_to_tree L]
  · exact num_list_roundtrip

/-- C8: the integer decoder counts only the right spine: `to_integer(Nil) = 0`,
`to_integer(Node(l, r)) = 1 + to_integer(r)` for every pair of trees, it
accepts every (also non-canonical) tree shape by totality, and its result is
independent of every left subtree (trees with the same right spine decode to
the same integer). -/
theorem claim_C8_to_integer_right_spine :
    to_integer .nil = 0 ∧
    (∀ l r : BinaryTree, to_integer (.node l r) = 1 + to_integer r) ∧
    (∀ t t' : BinaryTree, sameRightSpine t t' = true → to_integer t = to_integer t') := by
  refine ⟨rfl, fun l r => rfl, ?_⟩
  intro t
  induction t with
  | nil => intro t' h; cases t' <;> simp [sameRightSpine] at h ⊢
  | node l r ihl ihr =>
    intro t' h
    cases t' with
    | nil => simp [sameRightSpine] at h
    | node l' r' =>
      simp only [sameRightSpine] at h
      simp [to_integer, ihr r' h]

/-- Witness for C8: the third conjunct applied to two concrete trees with the
same right spine but different left subtrees. -/
theorem claim_C8_to_integer_right_spine_witness :
    to_integer (.node (.node .nil .nil) (.node .nil .nil)) =
      to_integer (.node .nil (.node (.node .nil .nil) .nil)) :=
  claim_C8_to_integer_right_spine.2.2
    (.node (.node .nil .nil) (.node .nil .nil))
    (.node .nil (.node (.node .nil .nil) .nil)) (by decide)

/-- C9: `to_tree(n)` fails with the domain error for every `n < 0`, while
`to_tree(0) = Nil` and `to_tree(n) = Node(Nil, to_tree(n-1))` for `n > 0`. -/
theorem claim_C9_to_tree_cases :
    (∀ n : Int, n < 0 → to_tree n = .error "Can't convert negative numbers to trees") ∧
    to_tree 0 = .ok .nil ∧
    (∀ n : Int, 0 < n → to_tree n = (to_tree (n - 1)).map (.node .nil)) := by
  refine ⟨?_, by rw [to_tree]; simp, ?_⟩
  · intro n hn
    rw [to_tree]
    simp [hn]
  · intro n hn
    rw [to_tree]
    have h0 : ¬ n < 0 := by omega
    have h1 : ¬ n = 0 := by omega
    simp only [h0, h1, if_false]
    cases to_tree (n - 1) <;> simp [Except.map]

/-- Witness for C9: `to_tree(-1)` fails with the domain error, and
`to_tree(2)` is built from `to_tree(1)` by adding one node. -/
theorem claim_C9_to_tree_cases_witness :
    to_tree (-1) = .error "Can't convert negative numbers to trees" ∧
    to_tree 2 = (to_tree 1).map (.node .nil) :=
  ⟨claim_C9_to_tree_cases.1 (-1) (by decide),
   claim_C9_to_tree_cases.2.2 2 (by decide)⟩

/-! ## String utilities mirroring the JavaScript primitives used by the source

The connector works on ASCII protocol text, so the JavaScript whitespace
class `\s` is modelled on its ASCII members. -/

def isWS (c : Char) : Bool :=
  c = ' ' || c = '\t' || c = '\n' || c = '\r' || c = '\x0b' || c = '\x0c'

/-- JavaScript `String.prototype.trim`: strip whitespace from both ends. -/
def jsTrim (s : String) : String :=
  ⟨((s.data.dropWhile isWS).reverse.dropWhile isWS).reverse⟩

/-- `str.split(/\r?\n\s*/)`: split on a newline (optionally preceded by a
carriage return) together with all whitespace that follows it.  The
separator never matches the empty string, so JavaScript's ordinary
leftmost-match splitting applies; splitting the empty string yields
`[""]`.  The `skip` flag is true while the `\s*` tail of a separator match
is being consumed (a whitespace character seen then belongs to the current
separator, exactly as the greedy `\s*` would take it). -/
def splitGo (skip : Bool) (acc : List Char) : List Char → List (List Char)
  | [] => [acc.reverse]
  | '\r' :: '\n' :: rest =>
    if skip then splitGo true acc ('\n' :: rest)
    else acc.reverse :: splitGo true [] rest
  | '\n' :: rest =>
    if skip then splitGo true acc rest
    else acc.reverse :: splitGo true [] rest
  | c :: rest =>
    if skip && isWS c then splitGo true acc rest
    else splitGo false (c :: acc) rest

def splitRN (s : String) : List String :=
  (splitGo false [] s.data).map fun l => ⟨l⟩

/-- `p` is a character-list prefix of `l`. -/
def hasPrefixCh : List Char → List Char → Bool
  | [], _ => true
  | _ :: _, [] => false
  | p :: ps, c :: cs => p = c && hasPrefixCh ps cs

/-- All ways of writing `l` as a nonempty prefix plus a suffix, ordered by
increasing prefix length.  Iterating in order models a lazy `(.+?)` capture;
iterating in reverse models a greedy `(.+)` capture. -/
def splits : List Char → List (List Char × List Char)
  | [] => []
  | c :: rest => ([c], rest) :: (splits rest).map fun q => (c :: q.1, q.2)

def isDigitCh (c : Char) : Bool := '0' ≤ c && c ≤ '9'

/-- Decimal value of a digit string (the `Number.parseInt` of a `\d+`
capture). -/
def natOfDigits (ds : List Char) : Nat :=
  ds.foldl (fun acc c => 10 * acc + (c.toNat - '0'.toNat)) 0

/-- `/^HWhile>\s*$/`: the prompt sentinel, alone save trailing whitespace. -/
def isPrompt (s : String) : Bool :=
  hasPrefixCh "HWhile>".data s.data && (s.data.drop 7).all isWS

/-! ## Reply-line matchers (the driver's regexes)

Each matcher models one of the regular expressions of
`src/src/InteractiveConnector.ts`, with JavaScript backtracking semantics:
a lazy `(.+?)` tries the shortest nonempty capture first, a greedy `(.+)`
the longest, and the rest of the pattern is retried for each candidate. -/

/-- `/^KEYWORD (.+?) = (.+)$/` for a fixed keyword (`wrote` / `read`):
returns the lazy first capture and the greedy remainder. -/
def keywordEqMatch (keyword : List Char) (s : String) : Option (String × String) :=
  if hasPrefixCh (keyword ++ [' ']) s.data then
    (splits (s.data.drop (keyword.length + 1))).findSome? fun q =>
      if hasPrefixCh " = ".data q.2 && q.2.drop 3 ≠ [] then
        some (⟨q.1⟩, ⟨q.2.drop 3⟩)
      else none
  else none

/-- `/^wrote (.+?) = (.+)$/` (the `run`/`step` completion line). -/
def wroteMatch (s : String) : Option (String × String) := keywordEqMatch "wrote".data s

/-- `/^read (.+?) = (.+)$/` (the `step` first-input line). -/
def readMatch (s : String) : Option (String × String) := keywordEqMatch "read".data s

/-- `/^(.+), line (\d+):/` (the breakpoint location line, matched as a
prefix): greedy program-name capture, then the line number. -/
def progLineMatch (s : String) : Option (String × Nat) :=
  ((splits s.data).reverse).findSome? fun q =>
    if hasPrefixCh ", line ".data q.2 then
      let afterComma := q.2.drop 7
      let ds := afterComma.takeWhile isDigitCh
      if ds ≠ [] && hasPrefixCh [':'] (afterComma.drop ds.length) then
        some (⟨q.1⟩, natOfDigits ds)
      else none
    else none

/-- `/^Program '(.+)' loaded/` (the `load` success line; the capture is
unused by the source, so a boolean test suffices). -/
def loadedMatch (s : String) : Bool :=
  hasPrefixCh "Program '".data s.data &&
    (splits (s.data.drop 9)).any fun q => hasPrefixCh "' loaded".data q.2

/-- `/^Breakpoint set in program .+ at line \d+\.$/` (boolean test). -/
def breakStatusMatch (intro : List Char) (s : String) : Bool :=
  hasPrefixCh intro s.data &&
    (splits (s.data.drop intro.length)).any fun q =>
      hasPrefixCh " at line ".data q.2 &&
        (let afterAt := q.2.drop 9
         let ds := afterAt.takeWhile isDigitCh
         ds ≠ [] && afterAt.drop ds.length = ['.'])

def breakSetMatch (s : String) : Bool :=
  breakStatusMatch "Breakpoint set in program ".data s

def breakRemovedMatch (s : String) : Bool :=
  breakStatusMatch "Breakpoint removed from program ".data s

/-- `/^\((.+?)\) (.+?) = (.+)$/` (a `:store` binding line): two lazy
captures and the greedy value text. -/
def storeLineMatch (s : String) : Option (String × String × String) :=
  match s.data with
  | '(' :: rest =>
    (splits rest).findSome? fun q1 =>
      if hasPrefixCh ") ".data q1.2 then
        (splits (q1.2.drop 2)).findSome? fun q2 =>
          if hasPrefixCh " = ".data q2.2 && q2.2.drop 3 ≠ [] then
            some (⟨q1.1⟩, ⟨q2.1⟩, ⟨q2.2.drop 3⟩)
          else none
      else none
  | _ => none

/-- `/^Program '(.+)', line (\d+)\.$/` (a `:break` listing line): greedy
program-name capture, then the line number, anchored at the end. -/
def breakLineMatch (s : String) : Option (String × Nat) :=
  if hasPrefixCh "Program '".data s.data then
    ((splits (s.data.drop 9)).reverse).findSome? fun q =>
      if hasPrefixCh "', line ".data q.2 then
        let afterComma := q.2.drop 8
        let ds := afterComma.takeWhile isDigitCh
        if ds ≠ [] && afterComma.drop ds.length = ['.'] then
          some (⟨q.1⟩, natOfDigits ds)
        else none
      else none
  else none

/-! ## Tree lexer and parser

Modelled from the spec: the tree-text lexer and recursive-descent parser
(§4.3–§4.4).  The released source delegates tree parsing to the external
`@whide/tree-lang` package and the repository's own
`src/parsers/TreeParser.ts` / `src/parsers/lexers/TreeLexer.ts` are not
present under `src/`, so the grammar `tree := NIL | OPEN tree DOT tree
CLOSE` and the error behaviour are taken from the spec's words (and agree
with the surviving lexer/parser test files). -/

inductive Token where
  | OPEN | CLOSE | DOT | NIL
deriving DecidableEq

/-- Modelled from the spec: scan left to right recognising exactly `<`,
`>`, `.` and the literal keyword `nil`; anything else fails immediately
with a lex error naming the unrecognised text. -/
def lexTree : List Char → Except String (List Token)
  | [] => .ok []
  | '<' :: rest => (lexTree rest).map (Token.OPEN :: ·)
  | '>' :: rest => (lexTree rest).map (Token.CLOSE :: ·)
  | '.' :: rest => (lexTree rest).map (Token.DOT :: ·)
  | 'n' :: 'i' :: 'l' :: rest => (lexTree rest).map (Token.NIL :: ·)
  | rest => .error ("Unrecognised token: \"" ++ ⟨rest⟩ ++ "\"")

/-- Modelled from the spec: recursive descent over
`tree := NIL | OPEN tree DOT tree CLOSE`; running out of tokens
mid-production fails with "unexpected end of statement", an unexpected
token fails with "unexpected token".  The fuel argument only bounds the
recursion depth; the nesting depth of a token list is below its length,
so the fuel never runs out when the parser starts with
`tokens.length + 1`. -/
def parseTok : Nat → List Token → Except String (BinaryTree × List Token)
  | _, [] => .error "unexpected end of statement"
  | _ + 1, Token.NIL :: rest => .ok (.nil, rest)
  | fuel + 1, Token.OPEN :: rest => do
    let (l, r1) ← parseTok fuel rest
    match r1 with
    | Token.DOT :: r2 => do
      let (r, r3) ← parseTok fuel r2
      match r3 with
      | Token.CLOSE :: r4 => pure (.node l r, r4)
      | [] => .error "unexpected end of statement"
      | _ :: _ => .error "unexpected token"
    | [] => .error "unexpected end of statement"
    | _ :: _ => .error "unexpected token"
  | _ + 1, _ :: _ => .error "unexpected token"
  | 0, _ :: _ => .error "unexpected end of statement"

/-- Modelled from the spec: a complete parse must consume every token;
trailing tokens after a structurally complete tree are an error. -/
def parseTree (s : String) : Except String BinaryTree := do
  let toks ← lexTree s.data
  let (t, rest) ← parseTok (toks.length + 1) toks
  match rest with
  | [] => pure t
  | _ :: _ => .error "unexpected token"

/-! ## Line/prompt framer (the `stdout` data handler installed by `start`)

The handler owns two pieces of state: `_outputHolder`, the
completed-but-unflushed lines, and `_dataCallbacks`, the FIFO queue of
pending requests.  Pending requests are represented by identifiers; a
`Flush` records which one was invoked and with what arguments. -/

structure FramerState where
  outputHolder : List String
  dataCallbacks : List Nat
deriving DecidableEq

structure Flush where
  callback : Nat
  lines : List String
  original : String
deriving DecidableEq

/-- One `data` event: split the chunk on `/\r?\n\s*/`, pop the last
fragment, append the rest to the line store; if the last fragment is the
prompt, shift the oldest callback, invoke it with the line store and the
raw chunk, and clear the store; otherwise (when truthy) append the last
fragment to the store. -/
def feed (st : FramerState) (chunk : String) : FramerState × Option Flush :=
  let lines := splitRN chunk
  let last := lines.getLast?
  let holder := st.outputHolder ++ lines.dropLast
  match last with
  | none => (⟨holder, st.dataCallbacks⟩, none)
  | some l =>
    if l = "" then (⟨holder, st.dataCallbacks⟩, none)
    else if isPrompt l then
      match st.dataCallbacks with
      | [] => (⟨[], []⟩, none)
      | c :: cbs => (⟨[], cbs⟩, some ⟨c, holder, chunk⟩)
    else (⟨holder ++ [l], st.dataCallbacks⟩, none)

/-- Feed a sequence of chunks, collecting the flushes in order. -/
def feedMany (st : FramerState) : List String → FramerState × List Flush
  | [] => (st, [])
  | c :: cs =>
    let r := feed st c
    let r' := feedMany r.1 cs
    (r'.1, r.2.toList ++ r'.2)

/-! ### Framer helper lemmas -/

theorem feed_flush_shape (st : FramerState) (chunk : String) :
    (∀ f, (feed st chunk).2 = some f →
      f.callback :: (feed st chunk).1.dataCallbacks = st.dataCallbacks ∧
      (feed st chunk).1.outputHolder = [] ∧
      f.lines = st.outputHolder ++ (splitRN chunk).dropLast ∧
      f.original = chunk) ∧
    ((feed st chunk).2 = none → (feed st chunk).1.dataCallbacks = st.dataCallbacks) := by
  unfold feed
  cases hlast : (splitRN chunk).getLast? with
  | none => simp [hlast]
  | some l =>
    by_cases h0 : l = ""
    · simp [hlast, h0]
    · by_cases hp : isPrompt l
      · cases hq : st.dataCallbacks with
        | nil => simp [hlast, h0, hp, hq]
        | cons c cbs => simp [hlast, h0, hp, hq]
      · simp [hlast, h0, hp]

theorem feedMany_fifo (st : FramerState) (chunks : List String) :
    (feedMany st chunks).2.map Flush.callback =
      st.dataCallbacks.take (feedMany st chunks).2.length ∧
    (feedMany st chunks).1.dataCallbacks =
      st.dataCallbacks.drop (feedMany st chunks).2.length := by
  induction chunks generalizing st with
  | nil => simp [feedMany]
  | cons c cs ih =>
    have hf := feed_flush_shape st c
    rcases hev : (feed st c).2 with _ | f
    · have hsame := hf.2 hev
      obtain ⟨h1, h2⟩ := ih (feed st c).1
      constructor
      · simp [feedMany, hev, h1, hsame]
      · simp [feedMany, hev, h2, hsame]
    · obtain ⟨hcons, hclear, _, _⟩ := hf.1 f hev
      obtain ⟨h1, h2⟩ := ih (feed st c).1
      constructor
      · simp only [feedMany, hev, Option.toList, List.map_cons, List.length_append,
          List.length_cons, List.singleton_append]
        rw [← hcons, h1]
        simp
      · simp only [feedMany, hev, Option.toList, List.length_append, List.length_cons,
          List.singleton_append]
        rw [← hcons, h2]
        simp

theorem feedMany_length (st : FramerState) (chunks : List String) :
    (feedMany st chunks).2.length ≤ chunks.length := by
  induction chunks generalizing st with
  | nil => simp [feedMany]
  | cons c cs ih =>
    have h := ih (feed st c).1
    cases hev : (feed st c).2 <;> simp [feedMany, hev, Option.toList] <;> omega

/-- C3 (counterexample): the handler passes the buffered lines to the
callback unfiltered.  After a chunk beginning with a newline the buffer
holds an empty string; on the prompt chunk the callback receives that
buffer as is, not with empty strings dropped as the claim states. -/
theorem claim_C3_counterexample :
    (feed (feed ⟨[], [0]⟩ "\nfoo").1 "HWhile> ").2 =
      some ⟨0, ["", "foo"], "HWhile> "⟩ ∧
    (["", "foo"] : List String).filter (fun s => s ≠ "") = ["foo"] ∧
    (Flush.mk 0 ["", "foo"] "HWhile> ") ≠ (Flush.mk 0 ["foo"] "HWhile> ") := by
  decide

/-- C3 (amended): when the framer detects the prompt sentinel as the final
fragment of a chunk, it dequeues the oldest PendingRequest, invokes it with
the buffered lines exactly as accumulated (plus the original chunk text) —
without filtering out empty strings — and clears the buffer. -/
theorem claim_C3_prompt_flush (st : FramerState) (chunk : String) (init : List String)
    (l : String) (c : Nat) (cbs : List Nat)
    (hsplit : splitRN chunk = init ++ [l]) (hprompt : isPrompt l = true)
    (hq : st.dataCallbacks = c :: cbs) :
    feed st chunk = (⟨[], cbs⟩, some ⟨c, st.outputHolder ++ init, chunk⟩) := by
  have hlast : (splitRN chunk).getLast? = some l := by rw [hsplit]; simp
  have hdrop : (splitRN chunk).dropLast = init := by rw [hsplit]; simp
  have hne : l ≠ "" := by
    intro h
    rw [h] at hprompt
    exact absurd hprompt (by decide)
  unfold feed
  simp [hlast, hdrop, hne, hprompt, hq]

/-- Witness for the amended C3 at a concrete buffer, queue and chunk. -/
theorem claim_C3_prompt_flush_witness :
    feed ⟨["", "foo"], [0]⟩ "HWhile> " = (⟨[], []⟩, some ⟨0, ["", "foo"], "HWhile> "⟩) := by
  have h := claim_C3_prompt_flush ⟨["", "foo"], [0]⟩ "HWhile> " [] "HWhile> " 0 []
    (by decide) (by decide) rfl
  simpa using h

/-- C4: every flush consumes exactly one PendingRequest (the oldest), the
line buffer is cleared in the same flush, a single chunk triggers at most
one flush (so a chunk with several prompt sentinels still satisfies at most
one PendingRequest), and over any chunk sequence the flushed callbacks are
exactly a prefix of the pending queue in FIFO (send) order. -/
theorem claim_C4_fifo_invariants :
    (∀ st chunk f, (feed st chunk).2 = some f →
      st.dataCallbacks = f.callback :: (feed st chunk).1.dataCallbacks ∧
      (feed st chunk).1.outputHolder = []) ∧
    (∀ st chunk, (feedMany st [chunk]).2.length ≤ 1) ∧
    (∀ st chunks,
      (feedMany st chunks).2.length ≤ chunks.length ∧
      (feedMany st chunks).2.map Flush.callback =
        st.dataCallbacks.take (feedMany st chunks).2.length ∧
      (feedMany st chunks).1.dataCallbacks =
        st.dataCallbacks.drop (feedMany st chunks).2.length) := by
  refine ⟨?_, ?_, ?_⟩
  · intro st chunk f hev
    have h := (feed_flush_shape st chunk).1 f hev
    exact ⟨h.1.symm, h.2.1⟩
  · intro st chunk
    simpa using feedMany_length st [chunk]
  · intro st chunks
    exact ⟨feedMany_length st chunks, (feedMany_fifo st chunks).1, (feedMany_fifo st chunks).2⟩

/-- Witness for C4: a single chunk carrying two prompt sentinels flushes
only the oldest of two pending requests, with the buffer cleared. -/
theorem claim_C4_fifo_invariants_witness :
    FramerState.dataCallbacks ⟨[], [0, 1]⟩ =
        Flush.callback ⟨0, ["HWhile> "], "HWhile> \nHWhile> "⟩ ::
          (feed ⟨[], [0, 1]⟩ "HWhile> \nHWhile> ").1.dataCallbacks ∧
      (feed ⟨[], [0, 1]⟩ "HWhile> \nHWhile> ").1.outputHolder = [] := by
  have h := claim_C4_fifo_invariants.1 ⟨[], [0, 1]⟩ "HWhile> \nHWhile> "
    ⟨0, ["HWhile> "], "HWhile> \nHWhile> "⟩ (by decide)
  exact h

/-! ## Session driver (`InteractiveHWhileConnector`)

The driver's mutable fields are `_progName`, `_currentLine` and `_isDone`.
Each derived operation is modelled as a pure function from the current
state and the replies the framer will deliver (one per `execute` call, in
order) to a result, the post-call state, and the list of command texts
written to the transport.  JavaScript truthiness tests on the string
fields (`!this._progName`, `!p`) treat both `undefined` and the empty
string as absent. -/

structure ConnState where
  progName : Option String
  currentLine : Option Nat
  isDone : Option Bool
deriving DecidableEq

def optFalsy : Option String → Bool
  | none => true
  | some s => s = ""

/-- JavaScript template-literal rendering of a possibly-undefined string. -/
def showOpt : Option String → String
  | none => "undefined"
  | some s => s

def unexpectedOutput (s : String) : String := "Unexpected output: \"" ++ s ++ "\""

/-- Association-list analogue of a JavaScript `Map`: `set` updates an
existing key in place (preserving insertion order) or appends. -/
def setA (m : List (String × α)) (k : String) (v : α) : List (String × α) :=
  if m.any fun q => q.1 = k then m.map fun q => if q.1 = k then (k, v) else q
  else m ++ [(k, v)]

def getA (m : List (String × α)) (k : String) : Option α :=
  (m.find? fun q => q.1 = k).map fun q => q.2

/-- `store()`: collect every reply line matching the binding regex and
build the program → (variable → tree) map; a value text that fails the
tree parser aborts the whole call, exactly as a `treeParser` throw does. -/
def storeParse (lines : List String) :
    Except String (List (String × List (String × BinaryTree))) :=
  (lines.filterMap storeLineMatch).foldlM
    (fun m q => do
      let tr ← parseTree q.2.2
      pure (setA m q.1 (setA ((getA m q.1).getD []) q.2.1 tr)))
    []

/-- `breakpointsMap()`: collect every reply line matching the breakpoint
listing regex into the program → line-list map. -/
def breaksParse (lines : List String) : List (String × List Nat) :=
  (lines.filterMap breakLineMatch).foldl
    (fun m q => setA m q.1 (((getA m q.1).getD []) ++ [q.2])) []

structure ProgramInfo where
  name : Option String
  vars : List (String × BinaryTree)
  allVariables : List (String × List (String × BinaryTree))
  breakpoints : List Nat
  allBreakpoints : List (String × List Nat)
  line : Option Nat
  done : Option Bool
deriving DecidableEq

/-- `_updateProgramState`: re-query the interpreter (`:store`, `:break`)
and snapshot the session fields.  Returns the snapshot and the commands it
wrote; if the store reply fails to parse, `:break` is never sent. -/
def updateProgramState (st : ConnState) (storeReply breakReply : List String) :
    Except String ProgramInfo × List String :=
  match storeParse storeReply with
  | .error e => (.error e, [":store"])
  | .ok vars =>
    let breaks := breaksParse breakReply
    (.ok { allBreakpoints := breaks,
           breakpoints := (getA breaks (st.progName.getD "")).getD [],
           vars := (getA vars (st.progName.getD "")).getD [],
           allVariables := vars,
           name := st.progName,
           line := st.currentLine,
           done := st.isDone }, [":store", ":break"])

inductive RunCause where
  | breakpoint
  | done (v : String) (value : BinaryTree)
deriving DecidableEq

structure RunResultType extends ProgramInfo where
  cause : RunCause
deriving DecidableEq

inductive StepCause where
  | start (v : String) (value : BinaryTree)
  | done (v : String) (value : BinaryTree)
  | breakpoint (note : Option String)
  | loopExit
deriving DecidableEq

structure StepResultType extends ProgramInfo where
  cause : StepCause
deriving DecidableEq

/-- `run()`: guard on a loaded program, send `:run`, drop the echoed
command, and decode the first line of the reply. -/
def runOp (st : ConnState) (reply storeReply breakReply : List String) :
    Except String RunResultType × ConnState × List String :=
  if optFalsy st.progName then (.error "No program to run", st, [])
  else
    match reply.drop 1 with
    | [] => (.error "Expected output, received nothing", st, [":run"])
    | first :: rest =>
      if first = "" then (.error "Expected output, received nothing", st, [":run"])
      else
        match wroteMatch first with
        | some q =>
          match parseTree q.2 with
          | .error e => (.error e, st, [":run"])
          | .ok tr =>
            let st' : ConnState := { st with currentLine := none, isDone := some true }
            match updateProgramState st' storeReply breakReply with
            | (.error e, w) => (.error e, st', [":run"] ++ w)
            | (.ok pi, w) =>
              (.ok { toProgramInfo := pi, cause := .done q.1 tr }, st', [":run"] ++ w)
        | none =>
          if first = "Hit breakpoint." then
            match rest with
            | [] => (.error "Unexpected end to output", st, [":run"])
            | l2 :: _ =>
              if l2 = "" then (.error "Unexpected end to output", st, [":run"])
              else
                match progLineMatch l2 with
                | none => (.error (unexpectedOutput l2), st, [":run"])
                | some q =>
                  let st' : ConnState :=
                    { st with progName := some q.1, currentLine := some q.2 }
                  match updateProgramState st' storeReply breakReply with
                  | (.error e, w) => (.error e, st', [":run"] ++ w)
                  | (.ok pi, w) =>
                    (.ok { toProgramInfo := pi, cause := .breakpoint }, st', [":run"] ++ w)
          else (.error (unexpectedOutput first), st, [":run"])

/-- `step()`: guard on a loaded program, send `:step`, drop the echoed
command, and decode the first line against the four step patterns in
source order (`read`, `wrote`, location line, loop-exit literal). -/
def stepOp (st : ConnState) (reply storeReply breakReply : List String) :
    Except String StepResultType × ConnState × List String :=
  if optFalsy st.progName then (.error "No program to run", st, [])
  else
    match reply.drop 1 with
    | [] => (.error "Expected output, received nothing", st, [":step"])
    | first :: rest =>
      if first = "" then (.error "Expected output, received nothing", st, [":step"])
      else
        match readMatch first with
        | some q =>
          match parseTree q.2 with
          | .error e => (.error e, st, [":step"])
          | .ok tr =>
            match updateProgramState st storeReply breakReply with
            | (.error e, w) => (.error e, st, [":step"] ++ w)
            | (.ok pi, w) =>
              (.ok { toProgramInfo := pi, cause := .start q.1 tr }, st, [":step"] ++ w)
        | none =>
          match wroteMatch first with
          | some q =>
            match parseTree q.2 with
            | .error e => (.error e, st, [":step"])
            | .ok tr =>
              let st' : ConnState := { st with currentLine := none, isDone := some true }
              match updateProgramState st' storeReply breakReply with
              | (.error e, w) => (.error e, st', [":step"] ++ w)
              | (.ok pi, w) =>
                (.ok { toProgramInfo := pi, cause := .done q.1 tr }, st', [":step"] ++ w)
          | none =>
            match progLineMatch first with
            | some q =>
              let st' : ConnState :=
                { st with progName := some q.1, currentLine := some q.2 }
              let note := (rest.drop 1).head?
              match updateProgramState st' storeReply breakReply with
              | (.error e, w) => (.error e, st', [":step"] ++ w)
              | (.ok pi, w) =>
                (.ok { toProgramInfo := pi, cause := .breakpoint note }, st', [":step"] ++ w)
            | none =>
              if first = "Skipped or exited while-loop." then
                match updateProgramState st storeReply breakReply with
                | (.error e, w) => (.error e, st, [":step"] ++ w)
                | (.ok pi, w) =>
                  (.ok { toProgramInfo := pi, cause := .loopExit }, st, [":step"] ++ w)
              else (.error (unexpectedOutput first), st, [":step"])

/-- `load(p, expr)`: send `:load p expr`, drop the echoed command, and
require the `Program '...' loaded` success line before assigning the
session fields to `{p, 0, false}`. -/
def loadOp (st : ConnState) (p expr : String) (reply storeReply breakReply : List String) :
    Except String ProgramInfo × ConnState × List String :=
  let cmd := jsTrim (":load " ++ p ++ " " ++ expr)
  match (reply.drop 1).head? with
  | none => (.error (unexpectedOutput (showOpt none)), st, [cmd])
  | some r =>
    if r ≠ "" ∧ loadedMatch r then
      let st' : ConnState := ⟨some p, some 0, some false⟩
      match updateProgramState st' storeReply breakReply with
      | (.error e, w) => (.error e, st', [cmd] ++ w)
      | (.ok pi, w) => (.ok pi, st', [cmd] ++ w)
    else (.error (unexpectedOutput r), st, [cmd])

/-- `addBreakpoint(n, p?)`: guard on an explicit or loaded program, send
`:break n p`, and require the `Breakpoint set ...` confirmation line. -/
def addBreakpointOp (st : ConnState) (n : Nat) (p : Option String)
    (reply storeReply breakReply : List String) :
    Except String ProgramInfo × ConnState × List String :=
  if optFalsy p && optFalsy st.progName then
    (.error "Can't update breakpoints without a program. Please load a program, or specify one explicitly.",
      st, [])
  else
    let cmd := jsTrim (":break " ++ toString n ++ " " ++ p.getD "")
    match (reply.drop 1).head? with
    | none => (.error (unexpectedOutput (showOpt none)), st, [cmd])
    | some l =>
      if l ≠ "" ∧ breakSetMatch l then
        match updateProgramState st storeReply breakReply with
        | (.error e, w) => (.error e, st, [cmd] ++ w)
        | (.ok pi, w) => (.ok pi, st, [cmd] ++ w)
      else (.error (unexpectedOutput l), st, [cmd])

/-- `delBreakpoint(n, p?)`: guard on an explicit or loaded program, send
`:delbreak n p`, and require the `Breakpoint removed ...` confirmation
line. -/
def delBreakpointOp (st : ConnState) (n : Nat) (p : Option String)
    (reply storeReply breakReply : List String) :
    Except String ProgramInfo × ConnState × List String :=
  if optFalsy p && optFalsy st.progName then
    (.error "Can't update breakpoints without a program. Please load a program, or specify one explicitly.",
      st, [])
  else
    let cmd := jsTrim (":delbreak " ++ toString n ++ " " ++ p.getD "")
    match (reply.drop 1).head? with
    | none => (.error (unexpectedOutput (showOpt none)), st, [cmd])
    | some l =>
      if l ≠ "" ∧ breakRemovedMatch l then
        match updateProgramState st storeReply breakReply with
        | (.error e, w) => (.error e, st, [cmd] ++ w)
        | (.ok pi, w) => (.ok pi, st, [cmd] ++ w)
      else (.error (unexpectedOutput l), st, [cmd])

/-! ### `execute` (C7): the send path, as an ordered action trace -/

inductive ExecAction where
  | registerCallback
  | pushBuffer (s : String)
  | writeStdin (s : String)
deriving DecidableEq

/-- `execute(expr)`: reject when no shell exists; otherwise trim the
command, push the PendingRequest callback, echo the trimmed command into
the line buffer, and write `command + newline` to the transport — in that
order. -/
def executeOp (shellActive : Bool) (expr : String) : Except String (List ExecAction) :=
  if !shellActive then .error "No shell to access. Try calling `this.start()`."
  else
    let e := jsTrim expr
    .ok [.registerCallback, .pushBuffer e, .writeStdin (e ++ "\n")]

/-- C6: `run()`/`step()` with no loaded program, and
`addBreakpoint(n)`/`delBreakpoint(n)` with neither an explicit program nor
a loaded one, fail with the usage error before writing anything to the
transport: no command is sent and the session state is unchanged. -/
theorem claim_C6_ops_require_program (st : ConnState) (h : st.progName = none)
    (n : Nat) (reply storeReply breakReply : List String) :
    runOp st reply storeReply breakReply = (.error "No program to run", st, []) ∧
    stepOp st reply storeReply breakReply = (.error "No program to run", st, []) ∧
    addBreakpointOp st n none reply storeReply breakReply =
      (.error "Can't update breakpoints without a program. Please load a program, or specify one explicitly.",
        st, []) ∧
    delBreakpointOp st n none reply storeReply breakReply =
      (.error "Can't update breakpoints without a program. Please load a program, or specify one explicitly.",
        st, []) := by
  refine ⟨?_, ?_, ?_, ?_⟩ <;>
    simp [runOp, stepOp, addBreakpointOp, delBreakpointOp, h, optFalsy]

/-- Witness for C6 in the freshly-started session state. -/
theorem claim_C6_ops_require_program_witness :
    runOp ⟨none, none, none⟩ [":run", "wrote X = nil"] [] [] =
      (.error "No program to run", ⟨none, none, none⟩, []) ∧
    stepOp ⟨none, none, none⟩ [":step", "read X = nil"] [] [] =
      (.error "No program to run", ⟨none, none, none⟩, []) ∧
    addBreakpointOp ⟨none, none, none⟩ 7 none [] [] [] =
      (.error "Can't update breakpoints without a program. Please load a program, or specify one explicitly.",
        ⟨none, none, none⟩, []) ∧
    delBreakpointOp ⟨none, none, none⟩ 7 none [] [] [] =
      (.error "Can't update breakpoints without a program. Please load a program, or specify one explicitly.",
        ⟨none, none, none⟩, []) :=
  claim_C6_ops_require_program ⟨none, none, none⟩ rfl 7 _ [] []

/-- C7: `execute(command)` fails with the transport error when no shell
exists; otherwise it trims the command, registers the PendingRequest
callback before writing to the transport, echoes the trimmed command into
the line buffer, and writes the command followed by a newline. -/
theorem claim_C7_execute_order (expr : String) :
    executeOp false expr = .error "No shell to access. Try calling `this.start()`." ∧
    executeOp true expr =
      .ok [.registerCallback, .pushBuffer (jsTrim expr),
           .writeStdin (jsTrim expr ++ "\n")] ∧
    (∀ acts i s, executeOp true expr = .ok acts →
      acts.get? i = some (.writeStdin s) →
      ∃ j, j < i ∧ acts.get? j = some .registerCallback) := by
  refine ⟨rfl, rfl, ?_⟩
  intro acts i s hok hget
  have hacts : acts = [.registerCallback, .pushBuffer (jsTrim expr),
      .writeStdin (jsTrim expr ++ "\n")] := by
    simpa [executeOp] using hok.symm
  subst hacts
  match i with
  | 0 => simp at hget
  | 1 => simp at hget
  | 2 => exact ⟨0, by omega, rfl⟩
  | k + 3 => simp [List.get?] at hget

/-- Witness for C7 on a command with surrounding whitespace. -/
theorem claim_C7_execute_order_witness :
    executeOp false "  :run " = .error "No shell to access. Try calling `this.start()`." ∧
    executeOp true "  :run " =
      .ok [.registerCallback, .pushBuffer (jsTrim "  :run "),
           .writeStdin (jsTrim "  :run " ++ "\n")] ∧
    (∃ j, j < 2 ∧
      [ExecAction.registerCallback, .pushBuffer (jsTrim "  :run "),
        .writeStdin (jsTrim "  :run " ++ "\n")].get? j = some .registerCallback) :=
  ⟨(claim_C7_execute_order "  :run ").1,
   (claim_C7_execute_order "  :run ").2.1,
   (claim_C7_execute_order "  :run ").2.2 _ 2 (jsTrim "  :run " ++ "\n")
     (claim_C7_execute_order "  :run ").2.1 rfl⟩

/-- C5: decoding a `run()` reply.  When the first significant line matches
`wrote VAR = TREE`, `run` returns cause `done` with that variable and the
parsed tree value and sets `done := true`, `line := undefined`; when it is
the literal `Hit breakpoint.` followed by a `PROG, line N:` line, `run`
returns cause `breakpoint` with the session's program name and line
updated to `PROG` and `N` and the done flag unchanged; any other first
significant line makes `run` fail with the error carrying the offending
raw text. -/
theorem claim_C5_run_decode (st : ConnState) (p : String)
    (reply storeReply breakReply : List String) (first : String) (rest : List String)
    (hp : st.progName = some p) (hpne : p ≠ "")
    (hlines : reply.drop 1 = first :: rest) :
    (∀ v t tr vars, wroteMatch first = some (v, t) → parseTree t = .ok tr →
      storeParse storeReply = .ok vars →
      ∃ res : RunResultType,
        runOp st reply storeReply breakReply =
          (.ok res, { st with currentLine := none, isDone := some true },
            [":run", ":store", ":break"]) ∧
        res.cause = .done v tr ∧ res.name = some p ∧ res.line = none ∧
        res.done = some true) ∧
    (∀ l2 rest2 pn n vars, first = "Hit breakpoint." → rest = l2 :: rest2 →
      progLineMatch l2 = some (pn, n) → storeParse storeReply = .ok vars →
      ∃ res : RunResultType,
        runOp st reply storeReply breakReply =
          (.ok res, { st with progName := some pn, currentLine := some n },
            [":run", ":store", ":break"]) ∧
        res.cause = .breakpoint ∧ res.name = some pn ∧ res.line = some n ∧
        res.done = st.isDone) ∧
    (wroteMatch first = none → first ≠ "Hit breakpoint." → first ≠ "" →
      runOp st reply storeReply breakReply =
        (.error (unexpectedOutput first), st, [":run"])) := by
  have hguard : optFalsy st.progName = false := by
    rw [hp]; simp [optFalsy, hpne]
  refine ⟨?_, ?_, ?_⟩
  · intro v t tr vars hw hparse hstore
    have hz : wroteMatch "" = none := by decide
    have hfne : first ≠ "" := by
      intro h0
      rw [h0, hz] at hw
      exact Option.noConfusion hw
    have heq : runOp st reply storeReply breakReply =
        (.ok ⟨⟨st.progName, (getA vars (st.progName.getD "")).getD [], vars,
            (getA (breaksParse breakReply) (st.progName.getD "")).getD [],
            breaksParse breakReply, none, some true⟩, .done v tr⟩,
          { st with currentLine := none, isDone := some true },
          [":run", ":store", ":break"]) := by
      simp [runOp, hguard, hlines, hfne, hw, hparse, updateProgramState, hstore]
    exact ⟨_, heq, rfl, hp, rfl, rfl⟩
  · intro l2 rest2 pn n vars hfirst hrest hmatch hstore
    have hz : progLineMatch "" = none := by decide
    have hl2ne : l2 ≠ "" := by
      intro h0
      rw [h0, hz] at hmatch
      exact Option.noConfusion hmatch
    have hw : wroteMatch "Hit breakpoint." = none := by decide
    have heq : runOp st reply storeReply breakReply =
        (.ok ⟨⟨some pn, (getA vars pn).getD [], vars,
            (getA (breaksParse breakReply) pn).getD [],
            breaksParse breakReply, some n, st.isDone⟩, .breakpoint⟩,
          { st with progName := some pn, currentLine := some n },
          [":run", ":store", ":break"]) := by
      simp [runOp, hguard, hlines, hfirst, hrest, hw, hl2ne, hmatch,
        updateProgramState, hstore]
    exact ⟨_, heq, rfl, rfl, rfl, rfl⟩
  · intro hw hnb hne
    simp [runOp, hguard, hlines, hne, hw, hnb]

/-- Witness for C5: the three decode cases at concrete replies (completed
run, breakpoint hit, and protocol garbage). -/
theorem claim_C5_run_decode_witness :
    (∃ res : RunResultType,
        runOp ⟨some "count", some 0, some false⟩
            [":run", "wrote SUM = <nil.nil>"] [] [] =
          (.ok res, ⟨some "count", none, some true⟩, [":run", ":store", ":break"]) ∧
        res.cause = .done "SUM" (.node .nil .nil) ∧ res.name = some "count" ∧
        res.line = none ∧ res.done = some true) ∧
    (∃ res : RunResultType,
        runOp ⟨some "count", some 0, some false⟩
            [":run", "Hit breakpoint.", "count, line 7:"] [] [] =
          (.ok res, ⟨some "count", some 7, some false⟩, [":run", ":store", ":break"]) ∧
        res.cause = .breakpoint ∧ res.name = some "count" ∧ res.line = some 7 ∧
        res.done = some false) ∧
    runOp ⟨some "count", some 0, some false⟩ [":run", "wat"] [] [] =
      (.error (unexpectedOutput "wat"), ⟨some "count", some 0, some false⟩, [":run"]) := by
  refine ⟨?_, ?_, ?_⟩
  · exact (claim_C5_run_decode ⟨some "count", some 0, some false⟩ "count"
      [":run", "wrote SUM = <nil.nil>"] [] [] "wrote SUM = <nil.nil>" []
      rfl (by decide) rfl).1 "SUM" "<nil.nil>" (.node .nil .nil) [] (by decide)
      (by decide) rfl
  · exact (claim_C5_run_decode ⟨some "count", some 0, some false⟩ "count"
      [":run", "Hit breakpoint.", "count, line 7:"] [] [] "Hit breakpoint."
      ["count, line 7:"] rfl (by decide) rfl).2.1 "count, line 7:" [] "count" 7 []
      rfl rfl (by decide) rfl
  · exact (claim_C5_run_decode ⟨some "count", some 0, some false⟩ "count"
      [":run", "wat"] [] [] "wat" [] rfl (by decide) rfl).2.2 (by decide)
      (by decide) (by decide)

/-- C10: `load(p, expr)` is atomic on protocol failure: when the first
significant reply line is missing, falsy or fails the
`Program '...' loaded` pattern, `load` fails with the unexpected-output
error and leaves the session state exactly as it was; the fields are
assigned (to `p`, `0`, `false`) only after the success pattern matches. -/
theorem claim_C10_load_atomic (st : ConnState) (p expr : String)
    (reply storeReply breakReply : List String) :
    (∀ r, (reply.drop 1).head? = some r → (r = "" ∨ loadedMatch r = false) →
      loadOp st p expr reply storeReply breakReply =
        (.error (unexpectedOutput r), st, [jsTrim (":load " ++ p ++ " " ++ expr)])) ∧
    ((reply.drop 1).head? = none →
      loadOp st p expr reply storeReply breakReply =
        (.error (unexpectedOutput "undefined"), st,
          [jsTrim (":load " ++ p ++ " " ++ expr)])) ∧
    (∀ r vars, (reply.drop 1).head? = some r → r ≠ "" → loadedMatch r = true →
      storeParse storeReply = .ok vars →
      ∃ pi, loadOp st p expr reply storeReply breakReply =
        (.ok pi, ⟨some p, some 0, some false⟩,
          [jsTrim (":load " ++ p ++ " " ++ expr), ":store", ":break"]) ∧
        pi.name = some p ∧ pi.line = some 0 ∧ pi.done = some false) := by
  refine ⟨?_, ?_, ?_⟩
  · intro r hr hbad
    have hr' : reply[1]? = some r := by simpa using hr
    have hcond : ¬(r ≠ "" ∧ loadedMatch r = true) := by
      rcases hbad with hbad | hbad
      · intro hc; exact hc.1 hbad
      · intro hc; rw [hbad] at hc; exact Bool.false_ne_true hc.2
    simp [loadOp, hr', hcond, showOpt]
  · intro hr
    have hr' : reply[1]? = none := by simpa using hr
    simp [loadOp, hr', showOpt]
  · intro r vars hr hne hmatch hstore
    have hr' : reply[1]? = some r := by simpa using hr
    refine ⟨{ name := some p,
              vars := (getA vars p).getD [],
              allVariables := vars,
              breakpoints := (getA (breaksParse breakReply) p).getD [],
              allBreakpoints := breaksParse breakReply,
              line := some 0, done := some false }, ?_, rfl, rfl, rfl⟩
    simp [loadOp, hr', hne, hmatch, updateProgramState, hstore]

/-- Witness for C10: a garbage reply leaves a previously-loaded session
untouched; the success line assigns `{p, 0, false}`. -/
theorem claim_C10_load_atomic_witness :
    loadOp ⟨some "a", some 3, some true⟩ "count" "[3]"
        [":load count [3]", "oops"] [] [] =
      (.error (unexpectedOutput "oops"), ⟨some "a", some 3, some true⟩,
        [jsTrim (":load " ++ "count" ++ " " ++ "[3]")]) ∧
    (∃ pi, loadOp ⟨some "a", some 3, some true⟩ "count" "[3]"
        [":load count [3]", "Program 'count' loaded."] [] [] =
      (.ok pi, ⟨some "count", some 0, some false⟩,
        [jsTrim (":load " ++ "count" ++ " " ++ "[3]"), ":store", ":break"]) ∧
      pi.name = some "count" ∧ pi.line = some 0 ∧ pi.done = some false) :=
  ⟨(claim_C10_load_atomic ⟨some "a", some 3, some true⟩ "count" "[3]"
      [":load count [3]", "oops"] [] []).1 "oops" rfl (Or.inr (by decide)),
   (claim_C10_load_atomic ⟨some "a", some 3, some true⟩ "count" "[3]"
      [":load count [3]", "Program 'count' loaded."] [] []).2.2
     "Program 'count' loaded." [] rfl (by decide) (by decide) rfl⟩

end HWhileWrapper

